import Mathlib

/-!
# Verification of the queuety message broker core

A shallow embedding, in Lean 4, of the core data model and operations of the
queuety topic-based message broker (written in Go), together with theorems
settling the testable properties of its specification.

Embedding conventions:
* Go strings are modelled as Lean `String` when only equality, concatenation
  and prefix tests matter (store keys, topic names, credentials), and as byte
  lists (`List Nat`, each element < 256) for the wire-level binary codec,
  since Go strings are raw byte sequences there.
* The Badger key-value store is modelled as an association list from keys to
  messages.  Badger transactions stage their deletes and writes and discard
  everything when the update closure returns an error; a staged delete of an
  absent (non-empty) key succeeds.  A possible failure of the staged write
  (`txn.Set`) is modelled by an explicit `setOk : Bool` oracle where the
  claims depend on it.
* JSON serialization of the `messageJSON` mirror record is performed by Go's
  `encoding/json` library, which is external to the repository; it is
  abstracted as a faithful transport of the record, so the repository's own
  contribution — the field-for-field copying between `Message` and
  `messageJSON` — is what is modelled and proved.
-/

namespace Queuety

/-- Wire format tags, from `MessageFormat` (`FormatJSON = 0x01`,
`FormatBinary = 0x02`). -/
inductive MessageFormat where
  | json
  | binary
deriving DecidableEq

/-- The broker `Message` record (`type Message struct` in `types.go`).
`topic` is the topic's `Name` (a Go `Topic` is a struct holding only a name and
compares by it); `body` (a `json.RawMessage`) and `bodyString` are opaque
payloads; `timestamp` is a Go `int64` and `attempts` a Go `int`, both modelled
as `Int`. -/
structure Message where
  id : String
  nextID : String
  mType : String
  user : String
  password : String
  topic : String
  body : String
  bodyString : String
  timestamp : Int
  ack : Bool
  attempts : Int
deriving DecidableEq

/-- `MsgPrefixFalse`: the key-space marker for unacknowledged messages.
Note the constant in the source is the bare word, without a trailing dash. -/
def MsgPrefixFalse : String := "false"

def MessageTypeNewTopic : String := "NEW_TOPIC"
def MessageTypeNew : String := "NEW_MESSAGE"
def MessageTypeNewSubscriber : String := "NEW_SUB"
def MessageTypeACK : String := "ACK"
def MessageTypeAuth : String := "AUTH"
def MessageAuthSuccess : String := "AUTH_SUCCESS"
def MessageAuthFailed : String := "AUTH_FAILED"

/-- Go's `strings.HasPrefix`, byte-level prefix test. -/
def strHasPref (p s : String) : Bool := p.data.isPrefixOf s.data

/-- `Message.IncAttempts`: `attempts += 1`. -/
def IncAttempts (m : Message) : Message := { m with attempts := m.attempts + 1 }

/-- `Message.updateACK`: `id := nextID`, `ack := true`. -/
def updateACK (m : Message) : Message := { m with id := m.nextID, ack := true }

/-- `Message.updateAuthSuccess`: sets the type to `AUTH_SUCCESS`. -/
def updateAuthSuccess (m : Message) : Message := { m with mType := MessageAuthSuccess }

/-- `Message.updateAuthFailed`: sets the type to `AUTH_FAILED`. -/
def updateAuthFailed (m : Message) : Message := { m with mType := MessageAuthFailed }

/-! ## Association-list maps

Generic key/value maps over `String` keys, used for the Badger store
(`Store`) and the topic registry (`Registry`).  Keys are unique: `ainsert`
replaces in place, `aerase` removes every occurrence. -/

abbrev AList (α : Type) : Type := List (String × α)

def alookup {α : Type} : AList α → String → Option α
  | [], _ => none
  | (k, v) :: rest, key => if k = key then some v else alookup rest key

def ainsert {α : Type} : AList α → String → α → AList α
  | [], key, v => [(key, v)]
  | (k, w) :: rest, key, v =>
    if k = key then (key, v) :: rest else (k, w) :: ainsert rest key v

def aerase {α : Type} : AList α → String → AList α
  | [], _ => []
  | (k, w) :: rest, key =>
    if k = key then aerase rest key else (k, w) :: aerase rest key

theorem alookup_ainsert_self {α : Type} (st : AList α) (k : String) (v : α) :
    alookup (ainsert st k v) k = some v := by
  induction st with
  | nil => simp [ainsert, alookup]
  | cons hd tl ih =>
    obtain ⟨k₀, v₀⟩ := hd
    by_cases h : k₀ = k <;> simp [ainsert, alookup, h, ih]

theorem alookup_ainsert_ne {α : Type} (st : AList α) (k k' : String) (v : α)
    (h : k' ≠ k) : alookup (ainsert st k v) k' = alookup st k' := by
  have hne : k ≠ k' := fun hh => h hh.symm
  induction st with
  | nil => simp [ainsert, alookup, hne]
  | cons hd tl ih =>
    obtain ⟨k₀, v₀⟩ := hd
    by_cases hk : k₀ = k
    · subst hk
      simp only [ainsert, if_pos rfl, alookup]
      rw [if_neg hne, if_neg hne]
    · simp only [ainsert, if_neg hk, alookup]
      by_cases hk' : k₀ = k' <;> simp [hk', ih]

theorem alookup_aerase_self {α : Type} (st : AList α) (k : String) :
    alookup (aerase st k) k = none := by
  induction st with
  | nil => simp [aerase, alookup]
  | cons hd tl ih =>
    obtain ⟨k₀, v₀⟩ := hd
    by_cases h : k₀ = k <;> simp [aerase, alookup, h, ih]

theorem alookup_aerase_ne {α : Type} (st : AList α) (k k' : String)
    (h : k' ≠ k) : alookup (aerase st k) k' = alookup st k' := by
  have hne : k ≠ k' := fun hh => h hh.symm
  induction st with
  | nil => simp [aerase]
  | cons hd tl ih =>
    obtain ⟨k₀, v₀⟩ := hd
    by_cases hk : k₀ = k
    · subst hk
      simp only [aerase, if_pos rfl, alookup]
      rw [if_neg hne]
      exact ih
    · simp only [aerase, if_neg hk, alookup]
      by_cases hk' : k₀ = k' <;> simp [hk', ih]

/-- The persistence store: Badger modelled as a key/value map whose values
are the (decoded) persisted messages. -/
abbrev Store : Type := AList Message

/-! ## Persistence layer (`persistence.go`) -/

/-- `BadgerDB.saveMessage`: rejects ids without the `MsgPrefixFalse` prefix;
otherwise increments `attempts` on the stored copy and writes it under
`message.ID()` (which `IncAttempts` leaves unchanged).  Serialization
(`Marshall`) of a message record never fails and the staged `txn.Set` of a
small entry under a non-empty key succeeds, so the transaction commits.  The
result pairs the returned error with the post-call store. -/
def saveMessage (st : Store) (m : Message) : Option String × Store :=
  if !(strHasPref MsgPrefixFalse m.id) then
    (some "invalid key, should start with false", st)
  else
    let m2 := IncAttempts m
    (none, ainsert st m2.id m2)

/-- `BadgerDB.updateMessageACK`: inside one Badger update transaction, stage a
delete of the entry under the caller's `message.ID()` (a staged delete of an
absent non-empty key succeeds in Badger), promote the message with
`updateACK`, and stage a write of the promoted message under its new id.
`setOk` is the outcome of the staged write/commit: if it fails, the
transaction is discarded and the store is unchanged. -/
def updateMessageACK (st : Store) (m : Message) (setOk : Bool) :
    Option String × Store :=
  let m2 := updateACK m
  if setOk then (none, ainsert (aerase st m.id) m2.id m2)
  else (some "cannot set promoted message", st)

/-- `checkNotDeliveredMessages`: iterate the entries whose key has the
`MsgPrefixFalse` prefix; collect each stored message with `attempts ≤ 3`,
incrementing `attempts` on the collected copy only. -/
def scanFalseEntries : Store → List Message
  | [] => []
  | (k, v) :: rest =>
    if strHasPref MsgPrefixFalse k then
      if v.attempts ≤ 3 then IncAttempts v :: scanFalseEntries rest
      else scanFalseEntries rest
    else scanFalseEntries rest

/-- `BadgerDB.checkNotDeliveredMessages` runs `scanFalseEntries` inside a
read-only (`View`) Badger transaction, which stages no writes; the second
component is the store after the call. -/
def checkNotDeliveredMessages (st : Store) : List Message × Store :=
  (scanFalseEntries st, st)

/-! ## Broker core (`server.go`, publish fanout and registry) -/

/-- A subscriber connection as seen by the publish fanout: its registered
wire format, and the outcomes of the three stream writes `sendNewMessage`
performs for it (format flag, length word, payload). -/
structure WClient where
  format : MessageFormat
  okFormat : Bool
  okLen : Bool
  okPayload : Bool
deriving DecidableEq

/-- `Server.save`: calls `saveMessage` and swallows the error (logs it). -/
def save (st : Store) (m : Message) : Store := (saveMessage st m).2

/-- `saveUnsentMessage`: increments `attempts` on the local copy, then calls
the save function (which increments once more on the stored copy). -/
def saveUnsentMessage (st : Store) (m : Message) : Store :=
  save st (IncAttempts m)

/-- The per-subscriber loop of `Server.sendNewMessage`.  For each client the
code writes the format flag, the length word and the payload; a failed format
or length write returns from the whole loop without persisting, a failed
payload write persists via `saveUnsentMessage` and returns, and after a full
write the message is saved when `attempts <= 1`.  The result is the list of
clients whose payload was written, paired with the final store.  Marshalling
of the message is total in the model. -/
def sendLoop (m : Message) : List WClient → Store → List WClient × Store
  | [], st => ([], st)
  | c :: rest, st =>
    if !c.okFormat then ([], st)
    else if !c.okLen then ([], st)
    else if !c.okPayload then ([], saveUnsentMessage st m)
    else
      let st2 := if m.attempts ≤ 1 then save st m else st
      let r := sendLoop m rest st2
      (c :: r.1, r.2)

/-- `Server.sendNewMessage`: drops the message when the topic has no
subscribers, otherwise runs the fanout loop over the subscriber list. -/
def sendNewMessage (st : Store) (m : Message) (clients : List WClient) :
    List WClient × Store :=
  if clients.length = 0 then ([], st) else sendLoop m clients st

/-- A subscriber row in the topic registry (`Client{conn, Format}`); the
connection is identified by a number. -/
structure Client where
  conn : Nat
  format : MessageFormat
deriving DecidableEq

/-- The topic registry `clients map[Topic][]Client`, keyed by topic name. -/
abbrev Registry : Type := AList (List Client)

/-- Reading `s.clients[topic]`: a missing key yields the empty (nil) list. -/
def regSubs (reg : Registry) (t : String) : List Client :=
  (alookup reg t).getD []

/-- `Server.addNewTopic`: `s.clients[NewTopic(name)] = []Client{}` — an
unconditional map assignment. -/
def addNewTopic (reg : Registry) (name : String) : Registry :=
  ainsert reg name []

/-- `Server.addNewSubscriber`: appends the client to the topic's list
(`s.clients[topic] = append(s.clients[topic], client)`). -/
def addNewSubscriber (reg : Registry) (c : Client) (t : String) : Registry :=
  ainsert reg t (regSubs reg t ++ [c])

/-- The inner loop of `Server.disconnect`: removes the first client whose
connection matches (the Go loop breaks after the first hit). -/
def removeFirstConn (n : Nat) : List Client → List Client
  | [] => []
  | c :: rest => if c.conn = n then rest else c :: removeFirstConn n rest

/-- `Server.disconnect`: for every topic, remove the first matching client
row, then delete every topic whose list is empty afterwards. -/
def disconnect (reg : Registry) (n : Nat) : Registry :=
  (reg.map (fun e => (e.1, removeFirstConn n e.2))).filter (fun e => !e.2.isEmpty)

/-! ## Authentication (`doLogin`) -/

/-- `Server.needAuth`: credentials are required when either configured value
is non-empty. -/
def needAuth (srvUser srvPass : String) : Bool :=
  srvUser != "" || srvPass != ""

/-- `Server.validateAuth`: byte equality of user and password. -/
def validateAuth (srvUser srvPass : String) (m : Message) : Bool :=
  srvUser == m.user && srvPass == m.password

/-- `Server.doLogin`: the reply written back to the client.  In each branch
the incoming message itself is re-marshalled after only its type field is
updated. -/
def doLogin (srvUser srvPass : String) (m : Message) : Message :=
  if !(needAuth srvUser srvPass) then updateAuthSuccess m
  else if !(validateAuth srvUser srvPass m) then updateAuthFailed m
  else updateAuthSuccess m

/-! ## Concrete sample data used by witnesses and counterexamples -/

def msgDefault : Message :=
  { id := "", nextID := "", mType := "", user := "", password := "",
    topic := "", body := "", bodyString := "", timestamp := 0,
    ack := false, attempts := 0 }

/-- A freshly published message: `id = "false-" + uuid`, `next_id = uuid`. -/
def msgFalseX : Message :=
  { msgDefault with
    id := "false-x", nextID := "x",
    mType := MessageTypeNew, topic := "t" }

/-- A pending message about to be acknowledged. -/
def msgAckA : Message :=
  { msgDefault with
    id := "false-abc", nextID := "abc",
    mType := MessageTypeACK, attempts := 1 }

/-- A message whose id is the bare word `false`, without the dash. -/
def msgBareFalse : Message := { msgDefault with id := "false", nextID := "f" }

/-- A message with an id carrying no `false` prefix at all. -/
def msgPlain : Message := { msgDefault with id := "abc" }

def clientA : Client := { conn := 0, format := MessageFormat.json }

def wOk : WClient :=
  { format := MessageFormat.json, okFormat := true, okLen := true, okPayload := true }

def wBadPayload : WClient :=
  { format := MessageFormat.json, okFormat := true, okLen := true, okPayload := false }

/-! ## C1 — acknowledgement promotion -/

theorem false_dash_append_ne (u : String) : ("false-" ++ u) ≠ u := by
  intro h
  have h1 := congrArg String.length h
  rw [String.length_append] at h1
  have h6 : ("false-" : String).length = 6 := rfl
  omega

/-- C1: for a message `m` with `m.id = "false-" + u` and `m.nextID = u`, a
successful `updateMessageACK` leaves no entry under `"false-" + u` and an
entry under `u` whose message has `ack = true` and `id = u`; the staged delete
is best-effort (the theorem needs no hypothesis that the old key is present),
and if the write under the new key fails the whole transaction is discarded,
leaving the store unchanged. -/
theorem c1_promote_ack (st : Store) (m : Message) (u : String)
    (hid : m.id = "false-" ++ u) (hnext : m.nextID = u) :
    (updateMessageACK st m true).1 = none ∧
    alookup (updateMessageACK st m true).2 ("false-" ++ u) = none ∧
    alookup (updateMessageACK st m true).2 u
      = some { m with id := u, ack := true } ∧
    updateMessageACK st m false = (some "cannot set promoted message", st) := by
  refine ⟨rfl, ?_, ?_, rfl⟩
  · show alookup (ainsert (aerase st m.id) (updateACK m).id (updateACK m))
      ("false-" ++ u) = none
    rw [show (updateACK m).id = u from by simp [updateACK, hnext]]
    rw [alookup_ainsert_ne _ _ _ _ (false_dash_append_ne u), hid,
      alookup_aerase_self]
  · show alookup (ainsert (aerase st m.id) (updateACK m).id (updateACK m)) u
      = some { m with id := u, ack := true }
    rw [show (updateACK m) = { m with id := u, ack := true } from by
      simp [updateACK, hnext]]
    exact alookup_ainsert_self _ _ _

theorem c1_promote_ack_witness :
    (updateMessageACK [("false-abc", msgAckA)] msgAckA true).1 = none ∧
    alookup (updateMessageACK [("false-abc", msgAckA)] msgAckA true).2
      ("false-" ++ "abc") = none ∧
    alookup (updateMessageACK [("false-abc", msgAckA)] msgAckA true).2 "abc"
      = some { msgAckA with id := "abc", ack := true } ∧
    updateMessageACK [("false-abc", msgAckA)] msgAckA false
      = (some "cannot set promoted message", [("false-abc", msgAckA)]) :=
  c1_promote_ack [("false-abc", msgAckA)] msgAckA "abc" (by decide) (by decide)

/-! ## C3 — the save guard checks the bare prefix `false`, not `false-` -/

/-- C3 as stated is false: the id `"false"` does not carry the prefix
`"false-"`, yet `saveMessage` accepts it and stores the message (with
`attempts` incremented) under that key. -/
theorem c3_counterexample :
    strHasPref "false-" "false" = false ∧
    (saveMessage [] msgBareFalse).1 = none ∧
    alookup (saveMessage [] msgBareFalse).2 "false"
      = some { msgBareFalse with attempts := 1 } := by decide

/-- C3 amended: `saveMessage` errors (leaving the store unchanged) exactly
when `m.id` lacks the prefix `"false"` (the source constant `MsgPrefixFalse`
is the bare word); on success the entry under `m.id` holds the message with
`attempts` incremented by one and every other key is untouched. -/
theorem c3_save_guard (st : Store) (m bad : Message) (k : String)
    (hm : strHasPref MsgPrefixFalse m.id = true)
    (hbad : strHasPref MsgPrefixFalse bad.id = false)
    (hk : k ≠ m.id) :
    (saveMessage st m).1 = none ∧
    alookup (saveMessage st m).2 m.id = some { m with attempts := m.attempts + 1 } ∧
    alookup (saveMessage st m).2 k = alookup st k ∧
    saveMessage st bad = (some "invalid key, should start with false", st) := by
  refine ⟨?_, ?_, ?_, ?_⟩
  · simp [saveMessage, hm]
  · simp only [saveMessage, hm, Bool.not_true, Bool.false_eq_true, if_false]
    exact alookup_ainsert_self _ _ _
  · simp only [saveMessage, hm, Bool.not_true, Bool.false_eq_true, if_false]
    exact alookup_ainsert_ne _ _ _ _ hk
  · simp [saveMessage, hbad]

theorem c3_save_guard_witness :
    (saveMessage [] msgFalseX).1 = none ∧
    alookup (saveMessage [] msgFalseX).2 msgFalseX.id
      = some { msgFalseX with attempts := msgFalseX.attempts + 1 } ∧
    alookup (saveMessage [] msgFalseX).2 "zzz" = alookup ([] : Store) "zzz" ∧
    saveMessage [] msgPlain = (some "invalid key, should start with false", []) :=
  c3_save_guard [] msgFalseX msgPlain "zzz" (by decide) (by decide) (by decide)

/-! ## C4 — the undelivered scan also uses the bare prefix `false` -/

/-- The scan described by the specification's words, parameterised by the
key prefix it quantifies over: the entries whose key has that prefix and
whose stored `attempts` is at most 3, each returned with `attempts`
incremented on the returned copy. -/
def specScan (pref : String) (st : Store) : List Message :=
  (st.filter (fun e => strHasPref pref e.1 && decide (e.2.attempts ≤ 3))).map
    (fun e => IncAttempts e.2)

/-- C4 as stated is false: the key `"falsex"` has no `"false-"` prefix, yet
the scan returns its entry (with `attempts` incremented). -/
theorem c4_counterexample :
    strHasPref "false-" "falsex" = false ∧
    (checkNotDeliveredMessages [("falsex", msgPlain)]).1
      = [{ msgPlain with attempts := 1 }] := by decide

/-- C4 amended: for every store, the scan returns exactly the entries whose
key has the bare prefix `"false"` (the source constant) and whose stored
`attempts` is at most 3, each equal to the stored message except that
`attempts` is incremented on the returned copy; the store itself is
unchanged. -/
theorem c4_scan_characterization (st : Store) :
    (checkNotDeliveredMessages st).1 = specScan MsgPrefixFalse st ∧
    (checkNotDeliveredMessages st).2 = st := by
  refine ⟨?_, rfl⟩
  show scanFalseEntries st = specScan MsgPrefixFalse st
  induction st with
  | nil => rfl
  | cons hd tl ih =>
    obtain ⟨k, v⟩ := hd
    by_cases h1 : strHasPref MsgPrefixFalse k
    · by_cases h2 : v.attempts ≤ 3 <;>
        simp [scanFalseEntries, specScan, h1, h2, ih, List.filter]
    · simp [scanFalseEntries, specScan, h1, ih, List.filter]

/-! ## C7 — createTopic overwrites an existing topic's subscriber list -/

/-- C7 as stated is false: on a registry where topic `"t"` already has a
subscriber, `addNewTopic "t"` resets the entry to the empty list instead of
leaving the registry unchanged. -/
theorem c7_counterexample :
    addNewTopic [("t", [clientA])] "t" = [("t", [])] ∧
    ([("t", [])] : Registry) ≠ [("t", [clientA])] := by decide

/-- C7 amended: `addNewTopic` is an unconditional map assignment: afterwards
the entry for `name` is the empty subscriber list — dropping any subscribers
an existing topic had — and every other topic is untouched. -/
theorem c7_create_topic_assigns (reg : Registry) (name k : String) :
    alookup (addNewTopic reg name) k =
      if k = name then some [] else alookup reg k := by
  by_cases h : k = name
  · subst h
    simp [addNewTopic, alookup_ainsert_self]
  · rw [if_neg h]
    exact alookup_ainsert_ne _ _ _ _ h

/-! ## C8 — subscribe appends unconditionally, allowing duplicates -/

/-- C8 as stated is false: starting from the empty registry (a reachable
state), two `addNewSubscriber` calls by the same session on the same topic
leave that session twice in the topic's subscriber list. -/
theorem c8_counterexample :
    alookup (addNewSubscriber (addNewSubscriber [] clientA "T") clientA "T") "T"
      = some [clientA, clientA] ∧
    List.countP (fun c => c.conn == clientA.conn) [clientA, clientA] = 2 := by
  decide

/-- C8 amended: `addNewSubscriber` appends the client to the topic's current
list with no duplicate check, so each call adds one more row for that
session's connection; other topics are untouched. -/
theorem c8_subscribe_appends (reg : Registry) (c : Client) (t k : String) :
    alookup (addNewSubscriber reg c t) k =
      (if k = t then some (regSubs reg t ++ [c]) else alookup reg k) ∧
    (regSubs (addNewSubscriber reg c t) t).countP (fun x => x.conn == c.conn) =
      (regSubs reg t).countP (fun x => x.conn == c.conn) + 1 := by
  have hmain : alookup (addNewSubscriber reg c t) k =
      (if k = t then some (regSubs reg t ++ [c]) else alookup reg k) := by
    by_cases h : k = t
    · subst h
      simp [addNewSubscriber, alookup_ainsert_self]
    · rw [if_neg h]
      exact alookup_ainsert_ne _ _ _ _ h
  refine ⟨hmain, ?_⟩
  have hself : alookup (addNewSubscriber reg c t) t = some (regSubs reg t ++ [c]) := by
    simp [addNewSubscriber, alookup_ainsert_self]
  have hr : regSubs (addNewSubscriber reg c t) t = regSubs reg t ++ [c] := by
    rw [regSubs, hself]
    rfl
  rw [hr, List.countP_append]
  simp [List.countP_cons]

/-! ## C9 — disconnect removes at most one row per topic -/

/-- C9 as stated is false: in the reachable registry where the session's
connection appears twice under topic `"T"`, `disconnect` removes only the
first row, so the session is still subscribed afterwards. -/
theorem c9_counterexample :
    disconnect (addNewSubscriber (addNewSubscriber [] clientA "T") clientA "T") 0
      = [("T", [clientA])] ∧ clientA.conn = 0 := by decide

theorem removeFirstConn_all (n : Nat) (cs : List Client)
    (h : cs.countP (fun c => c.conn == n) ≤ 1) :
    (removeFirstConn n cs).all (fun c => !(c.conn == n)) = true := by
  induction cs with
  | nil => rfl
  | cons c rest ih =>
    by_cases hc : c.conn = n
    · have h0 : rest.countP (fun x => x.conn == n) = 0 := by
        rw [List.countP_cons] at h
        have hb : ((c.conn == n) = true) := by simpa using hc
        rw [if_pos hb] at h
        omega
      simp only [removeFirstConn, hc, if_pos rfl]
      rw [List.all_eq_true]
      intro x hx
      simpa using (List.countP_eq_zero.mp h0) x hx
    · have h1 : rest.countP (fun x => x.conn == n) ≤ 1 := by
        rw [List.countP_cons] at h
        omega
      simp [removeFirstConn, hc, ih h1]

/-- C9 amended: provided the session's connection occurs at most once in each
topic's subscriber list (which two subscriptions by one session can violate),
after `disconnect` no surviving topic's list contains that connection, and no
entry with an empty list survives (topics emptied by the removal — and
topics that were already empty — are dropped). -/
theorem c9_disconnect_removes (reg : Registry) (n : Nat)
    (h : ∀ e ∈ reg, e.2.countP (fun c => c.conn == n) ≤ 1) :
    (disconnect reg n).all
      (fun e => e.2.all (fun c => !(c.conn == n)) && !e.2.isEmpty) = true := by
  rw [List.all_eq_true]
  intro e he
  simp only [disconnect, List.mem_filter, List.mem_map] at he
  obtain ⟨⟨⟨t, cs⟩, hmem, hmap⟩, hne⟩ := he
  rw [Bool.and_eq_true]
  refine ⟨?_, hne⟩
  rw [← hmap]
  exact removeFirstConn_all n cs (h _ hmem)

theorem c9_disconnect_removes_witness :
    (disconnect [("T", [clientA]), ("U", [])] 0).all
      (fun e => e.2.all (fun c => !(c.conn == 0)) && !e.2.isEmpty) = true :=
  c9_disconnect_removes [("T", [clientA]), ("U", [])] 0 (by decide)

/-! ## C10 — the auth reply echoes the request, credentials included -/

/-- C10: in every branch of `doLogin` the reply is the incoming message with
only the type field changed (to `AUTH_SUCCESS` or `AUTH_FAILED`); all other
fields, including the submitted user and password, are echoed back
unchanged. -/
theorem c10_auth_reply_echoes (srvUser srvPass : String) (m : Message) :
    (doLogin srvUser srvPass m).id = m.id ∧
    (doLogin srvUser srvPass m).nextID = m.nextID ∧
    (doLogin srvUser srvPass m).user = m.user ∧
    (doLogin srvUser srvPass m).password = m.password ∧
    (doLogin srvUser srvPass m).topic = m.topic ∧
    (doLogin srvUser srvPass m).body = m.body ∧
    (doLogin srvUser srvPass m).bodyString = m.bodyString ∧
    (doLogin srvUser srvPass m).timestamp = m.timestamp ∧
    (doLogin srvUser srvPass m).ack = m.ack ∧
    (doLogin srvUser srvPass m).attempts = m.attempts ∧
    ((doLogin srvUser srvPass m).mType = MessageAuthSuccess ∨
      (doLogin srvUser srvPass m).mType = MessageAuthFailed) := by
  unfold doLogin
  split
  · simp [updateAuthSuccess]
  · split
    · simp [updateAuthFailed]
    · simp [updateAuthSuccess]

/-! ## C2 — a failed subscriber write aborts the rest of the fanout -/

/-- C2 as stated is false: with two subscribers of which the first fails its
payload write, the fanout saves the message for retry but then returns, so
the second (healthy) subscriber receives nothing; the persisted copy has
`attempts` bumped twice (once in `saveUnsentMessage`, once in the save). -/
theorem c2_counterexample :
    (sendNewMessage [] msgFalseX [wBadPayload, wOk]).1 = [] ∧
    wOk.okPayload = true ∧
    alookup (sendNewMessage [] msgFalseX [wBadPayload, wOk]).2 "false-x"
      = some { msgFalseX with attempts := 2 } := by decide

theorem sendLoop_head_fails (m : Message) (post : List WClient) (st : Store)
    (c : WClient) (hc : c.okFormat = true) (hc2 : c.okLen = true)
    (hc3 : c.okPayload = false) :
    sendLoop m (c :: post) st = ([], saveUnsentMessage st m) := by
  simp [sendLoop, hc, hc2, hc3]

theorem sendLoop_fail_after (m : Message) (post : List WClient) (c : WClient)
    (hc : c.okFormat = true) (hc2 : c.okLen = true) (hc3 : c.okPayload = false)
    (pre : List WClient) :
    ∀ st : Store, pre.all (fun x => x.okFormat && x.okLen && x.okPayload) = true →
      ∃ st2, sendLoop m (pre ++ c :: post) st = (pre, saveUnsentMessage st2 m) := by
  induction pre with
  | nil =>
    intro st _
    exact ⟨st, by simpa using sendLoop_head_fails m post st c hc hc2 hc3⟩
  | cons w ws ih =>
    intro st hall
    rw [List.all_cons, Bool.and_eq_true] at hall
    obtain ⟨hw, hws⟩ := hall
    rw [Bool.and_eq_true, Bool.and_eq_true] at hw
    obtain ⟨⟨hw1, hw2⟩, hw3⟩ := hw
    obtain ⟨st2, hst2⟩ := ih (if m.attempts ≤ 1 then save st m else st) hws
    refine ⟨st2, ?_⟩
    simp only [List.cons_append, sendLoop, hw1, hw2, hw3, Bool.not_true,
      Bool.false_eq_true, if_false, List.append_eq, hst2]

theorem alookup_saveUnsent (st : Store) (m : Message)
    (hm : strHasPref MsgPrefixFalse m.id = true) :
    alookup (saveUnsentMessage st m) m.id
      = some { m with attempts := m.attempts + 2 } := by
  have : ({ m with attempts := m.attempts + 1 + 1 } : Message)
      = { m with attempts := m.attempts + 2 } := by
    simp only [Message.mk.injEq, and_self, and_true, true_and]
    omega
  simp only [saveUnsentMessage, save, saveMessage, IncAttempts, hm,
    Bool.not_true, Bool.false_eq_true, if_false]
  rw [show alookup (ainsert st m.id { m with attempts := m.attempts + 1 + 1 }) m.id
      = some { m with attempts := m.attempts + 1 + 1 } from alookup_ainsert_self _ _ _]
  rw [this]

/-- C2 amended: when the payload write to one subscriber fails, a copy of the
message is persisted under its (`"false"`-prefixed) key with `attempts`
incremented twice — once by `saveUnsentMessage` and once inside the save —
but the fanout loop returns immediately: exactly the subscribers before the
failing one were written, and the subscribers after it are skipped. -/
theorem c2_partial_failure (st : Store) (m : Message) (pre post : List WClient)
    (c : WClient)
    (hpre : pre.all (fun x => x.okFormat && x.okLen && x.okPayload) = true)
    (hc : c.okFormat = true) (hc2 : c.okLen = true) (hc3 : c.okPayload = false)
    (hm : strHasPref MsgPrefixFalse m.id = true) :
    (sendNewMessage st m (pre ++ c :: post)).1 = pre ∧
    alookup (sendNewMessage st m (pre ++ c :: post)).2 m.id
      = some { m with attempts := m.attempts + 2 } := by
  obtain ⟨st2, hst2⟩ := sendLoop_fail_after m post c hc hc2 hc3 pre st hpre
  have hlen : (pre ++ c :: post).length ≠ 0 := by simp
  rw [sendNewMessage, if_neg hlen, hst2]
  exact ⟨rfl, alookup_saveUnsent st2 m hm⟩

theorem c2_partial_failure_witness :
    (sendNewMessage [] msgFalseX ([wOk] ++ wBadPayload :: [wOk])).1 = [wOk] ∧
    alookup (sendNewMessage [] msgFalseX ([wOk] ++ wBadPayload :: [wOk])).2
      msgFalseX.id = some { msgFalseX with attempts := msgFalseX.attempts + 2 } :=
  c2_partial_failure [] msgFalseX [wOk] [wOk] wBadPayload (by decide)
    (by decide) (by decide) (by decide) (by decide)

/-! ## Byte-level primitives

The wire layer works on byte sequences, modelled as `List Nat` with each
element below 256.  Encoders write little-endian words exactly as
`encoding/binary` does, truncating to the word width (Go's `uint16(n)` /
`uint32(n)` casts); readers mirror `io.ReadFull` + `binary.Read`. -/

/-- Little-endian bytes of `n` truncated to 16 bits (Go `uint16(n)`). -/
def u16le (n : Nat) : List Nat := [n % 256, n / 256 % 256]

/-- Little-endian bytes of `n` truncated to 32 bits (Go `uint32(n)`). -/
def u32le (n : Nat) : List Nat :=
  [n % 256, n / 256 % 256, n / 65536 % 256, n / 16777216 % 256]

/-- Little-endian bytes of `n` truncated to 64 bits. -/
def u64le (n : Nat) : List Nat :=
  [n % 256, n / 256 % 256, n / 65536 % 256, n / 16777216 % 256,
   n / 4294967296 % 256, n / 1099511627776 % 256,
   n / 281474976710656 % 256, n / 72057594037927936 % 256]

/-- Read a little-endian `uint16`. -/
def rdU16 : List Nat → Option (Nat × List Nat)
  | b0 :: b1 :: rest => some (b0 + 256 * b1, rest)
  | _ => none

/-- Read a little-endian `uint32`. -/
def rdU32 : List Nat → Option (Nat × List Nat)
  | b0 :: b1 :: b2 :: b3 :: rest =>
    some (b0 + 256 * b1 + 65536 * b2 + 16777216 * b3, rest)
  | _ => none

/-- Read a little-endian 64-bit word. -/
def rdU64 : List Nat → Option (Nat × List Nat)
  | b0 :: b1 :: b2 :: b3 :: b4 :: b5 :: b6 :: b7 :: rest =>
    some (b0 + 256 * b1 + 65536 * b2 + 16777216 * b3 + 4294967296 * b4
      + 1099511627776 * b5 + 281474976710656 * b6
      + 72057594037927936 * b7, rest)
  | _ => none

/-- Read exactly `n` bytes (`io.ReadFull`): fails on a short stream. -/
def rdBytes (n : Nat) (bs : List Nat) : Option (List Nat × List Nat) :=
  if n ≤ bs.length then some (bs.take n, bs.drop n) else none

theorem rdU16_u16le (n : Nat) (rest : List Nat) :
    rdU16 (u16le n ++ rest) = some (n % 65536, rest) := by
  simp only [u16le, List.cons_append, List.nil_append, rdU16, Option.some.injEq,
    Prod.mk.injEq, and_true]
  omega

theorem rdU32_u32le (n : Nat) (rest : List Nat) :
    rdU32 (u32le n ++ rest) = some (n % 4294967296, rest) := by
  simp only [u32le, List.cons_append, List.nil_append, rdU32, Option.some.injEq,
    Prod.mk.injEq, and_true]
  omega

theorem rdU64_u64le (n : Nat) (rest : List Nat) :
    rdU64 (u64le n ++ rest) = some (n % 18446744073709551616, rest) := by
  simp only [u64le, List.cons_append, List.nil_append, rdU64, Option.some.injEq,
    Prod.mk.injEq, and_true]
  omega

theorem rdBytes_append (s rest : List Nat) :
    rdBytes s.length (s ++ rest) = some (s, rest) := by
  rw [rdBytes, if_pos (by simp)]
  rw [List.take_left, List.drop_left]

/-! ## C6 — there is no 10 MiB frame-size cap -/

/-- The outcome of one iteration of `handleConnections` on the remaining
input bytes of a connection: end-of-stream at the format byte disconnects the
session; a short read of the length word or the payload is logged and the
loop continues (the frame is skipped, the read bytes consumed); otherwise the
frame's payload is handed to `handleMessage` (dispatched). -/
inductive ReadResult where
  | disconnected
  | skipped (rest : List Nat)
  | dispatched (format : Nat) (payload : List Nat) (rest : List Nat)

/-- One iteration of `Server.handleConnections`: read 1 format byte, 4
little-endian length bytes, then exactly the declared number of payload
bytes, with no bound on the declared length. -/
def readFrame : List Nat → ReadResult
  | [] => ReadResult.disconnected
  | tag :: rest =>
    match rdU32 rest with
    | none => ReadResult.skipped []
    | some (len, rest2) =>
      match rdBytes len rest2 with
      | none => ReadResult.skipped []
      | some (payload, rest3) => ReadResult.dispatched tag payload rest3

theorem readFrame_cons (tag : Nat) (rest : List Nat) :
    readFrame (tag :: rest) =
      match rdU32 rest with
      | none => ReadResult.skipped []
      | some (len, rest2) =>
        match rdBytes len rest2 with
        | none => ReadResult.skipped []
        | some (payload, rest3) => ReadResult.dispatched tag payload rest3 := rfl

theorem readFrame_disp (tag len : Nat) (rest rest2 payload rest3 : List Nat)
    (h1 : rdU32 rest = some (len, rest2))
    (h2 : rdBytes len rest2 = some (payload, rest3)) :
    readFrame (tag :: rest) = ReadResult.dispatched tag payload rest3 := by
  rw [readFrame_cons, h1]
  show (match rdBytes len rest2 with
    | none => ReadResult.skipped []
    | some (payload, rest3) => ReadResult.dispatched tag payload rest3)
    = ReadResult.dispatched tag payload rest3
  rw [h2]

/-- C6 as stated is false: a frame declaring a 20 MiB payload (20971520
bytes, above the claimed 10 MiB cap) is not discarded — `readFrame` reads the
whole payload and dispatches it to the message handler. -/
theorem c6_counterexample :
    readFrame (1 :: (u32le 20971520 ++ (List.replicate 20971520 48 ++ [])))
      = ReadResult.dispatched 1 (List.replicate 20971520 48) [] ∧
    10 * 1024 * 1024 < 20971520 := by
  constructor
  · have h32 := rdU32_u32le 20971520 (List.replicate 20971520 48 ++ [])
    rw [show (20971520 % 4294967296) = 20971520 from by norm_num] at h32
    have hb := rdBytes_append (List.replicate 20971520 48) []
    rw [List.length_replicate] at hb
    exact readFrame_disp 1 20971520 _ _ _ _ h32 hb
  · norm_num

/-- C6 amended: the session handler imposes no size cap at all — whenever the
declared length's worth of bytes is available, the frame is read in full and
dispatched, whatever its size. -/
theorem c6_no_size_cap (tag len : Nat) (payload rest : List Nat)
    (hp : payload.length = len) (hlen : len < 4294967296) :
    readFrame (tag :: (u32le len ++ (payload ++ rest)))
      = ReadResult.dispatched tag payload rest := by
  have h32 := rdU32_u32le len (payload ++ rest)
  rw [Nat.mod_eq_of_lt hlen] at h32
  have hb := rdBytes_append payload rest
  rw [hp] at hb
  exact readFrame_disp tag len _ _ _ _ h32 hb

theorem c6_no_size_cap_witness :
    readFrame (1 :: (u32le 2 ++ ([10, 11] ++ [])))
      = ReadResult.dispatched 1 [10, 11] [] :=
  c6_no_size_cap 1 2 [10, 11] [] (by decide) (by decide)

/-! ## C5 — wire-encoding round trips

The textual (JSON) encoding is the composition of the repository's
field-for-field copy into the `messageJSON` mirror record with the external
`encoding/json` codec, abstracted as a faithful transport of that record.
The binary encoding is modelled byte for byte; its message fields are raw Go
byte strings (`List Nat`). -/

/-- The `messageJSON` mirror record (the JSON tags of `types.go`). -/
structure MessageJSON where
  id : String
  nextID : String
  mType : String
  user : String
  password : String
  topic : String
  body : String
  bodyString : String
  timestamp : Int
  ack : Bool
  attempts : Int
deriving DecidableEq

/-- `Message.Marshall`: copies every message field into the mirror record
handed to the JSON encoder. -/
def Marshall (m : Message) : MessageJSON :=
  { id := m.id, nextID := m.nextID, mType := m.mType, user := m.user,
    password := m.password, topic := m.topic, body := m.body,
    bodyString := m.bodyString, timestamp := m.timestamp, ack := m.ack,
    attempts := m.attempts }

/-- `DecodeMessage`: copies every mirror-record field back into a message. -/
def DecodeMessage (j : MessageJSON) : Message :=
  { id := j.id, nextID := j.nextID, mType := j.mType, user := j.user,
    password := j.password, topic := j.topic, body := j.body,
    bodyString := j.bodyString, timestamp := j.timestamp, ack := j.ack,
    attempts := j.attempts }

/-- The message record at the byte level, as the binary codec sees it: the
string-typed Go fields are raw byte sequences. -/
structure MsgB where
  id : List Nat
  nextID : List Nat
  mType : List Nat
  user : List Nat
  password : List Nat
  topicName : List Nat
  body : List Nat
  bodyString : List Nat
  timestamp : Int
  ack : Bool
  attempts : Int
deriving DecidableEq

/-- A `uint16`-length-prefixed field as `MarshalBinary` writes it: the length
is truncated by the `uint16(len(...))` cast, the bytes are written whole. -/
def field16 (s : List Nat) : List Nat := u16le s.length ++ s

/-- A `uint32`-length-prefixed field. -/
def field32 (s : List Nat) : List Nat := u32le s.length ++ s

/-- Two's-complement bytes of an `int64` value. -/
def i64le (z : Int) : List Nat := u64le (z % 18446744073709551616).toNat

/-- Two's-complement bytes of the `int32(...)` cast of a Go `int`. -/
def i32le (z : Int) : List Nat := u32le (z % 4294967296).toNat

/-- `Message.MarshalBinary`: the eleven fields in wire order, the buffer
written left to right (grouped to the right; list append is associative). -/
def MarshalBinary (m : MsgB) : List Nat :=
  field16 m.id ++ (field16 m.nextID ++ (field16 m.mType ++ (field16 m.user ++
  (field16 m.password ++ (field16 m.topicName ++ (field32 m.body ++
  (field32 m.bodyString ++ (i64le m.timestamp ++
  ((if m.ack then 1 else 0) :: i32le m.attempts)))))))))

/-- Read one byte. -/
def rdU8 : List Nat → Option (Nat × List Nat)
  | b :: rest => some (b, rest)
  | _ => none

/-- Interpret a 64-bit word as a signed value. -/
def toSigned64 (n : Nat) : Int :=
  if n < 9223372036854775808 then (n : Int)
  else (n : Int) - 18446744073709551616

/-- Interpret a 32-bit word as a signed value (`binary.Read` into `int32`,
then widened back to a Go `int`). -/
def toSigned32 (n : Nat) : Int :=
  if n < 2147483648 then (n : Int) else (n : Int) - 4294967296

def rdI64 (bs : List Nat) : Option (Int × List Nat) :=
  (rdU64 bs).map (fun p => (toSigned64 p.1, p.2))

def rdI32 (bs : List Nat) : Option (Int × List Nat) :=
  (rdU32 bs).map (fun p => (toSigned32 p.1, p.2))

/-- Read a `uint16`-length-prefixed field. -/
def rdField16 (bs : List Nat) : Option (List Nat × List Nat) :=
  (rdU16 bs).bind (fun p => rdBytes p.1 p.2)

/-- Read a `uint32`-length-prefixed field. -/
def rdField32 (bs : List Nat) : Option (List Nat × List Nat) :=
  (rdU32 bs).bind (fun p => rdBytes p.1 p.2)

/-- `Message.UnmarshalBinary`: the eleven reads in wire order; any short read
fails the decode.  Trailing bytes are ignored, as in the source. -/
def UnmarshalBinary (bs : List Nat) : Option MsgB :=
  (rdField16 bs).bind fun p1 =>
  (rdField16 p1.2).bind fun p2 =>
  (rdField16 p2.2).bind fun p3 =>
  (rdField16 p3.2).bind fun p4 =>
  (rdField16 p4.2).bind fun p5 =>
  (rdField16 p5.2).bind fun p6 =>
  (rdField32 p6.2).bind fun p7 =>
  (rdField32 p7.2).bind fun p8 =>
  (rdI64 p8.2).bind fun p9 =>
  (rdU8 p9.2).bind fun pA =>
  (rdI32 pA.2).bind fun pB =>
  some { id := p1.1, nextID := p2.1, mType := p3.1, user := p4.1,
         password := p5.1, topicName := p6.1, body := p7.1,
         bodyString := p8.1, timestamp := p9.1, ack := pA.1 == 1,
         attempts := pB.1 }

theorem rdField16_field16 (s rest : List Nat) (h : s.length < 65536) :
    rdField16 (field16 s ++ rest) = some (s, rest) := by
  rw [field16, List.append_assoc, rdField16, rdU16_u16le]
  show rdBytes (s.length % 65536) (s ++ rest) = some (s, rest)
  rw [Nat.mod_eq_of_lt h]
  exact rdBytes_append s rest

theorem rdField32_field32 (s rest : List Nat) (h : s.length < 4294967296) :
    rdField32 (field32 s ++ rest) = some (s, rest) := by
  rw [field32, List.append_assoc, rdField32, rdU32_u32le]
  show rdBytes (s.length % 4294967296) (s ++ rest) = some (s, rest)
  rw [Nat.mod_eq_of_lt h]
  exact rdBytes_append s rest

theorem toSigned64_emod (z : Int) (h1 : -9223372036854775808 ≤ z)
    (h2 : z < 9223372036854775808) :
    toSigned64 ((z % 18446744073709551616).toNat % 18446744073709551616)
      = z := by
  have hb0 : 0 ≤ z % 18446744073709551616 := Int.emod_nonneg z (by norm_num)
  have hcases : z % 18446744073709551616 = z ∨
      z % 18446744073709551616 = z + 18446744073709551616 := by
    rcases le_or_lt 0 z with hz | hz
    · exact Or.inl (Int.emod_eq_of_lt hz (by omega))
    · refine Or.inr ?_
      have h3 : (z + 18446744073709551616) % 18446744073709551616
          = z % 18446744073709551616 := by
        simp [Int.add_mul_emod_self_left]
      rw [← h3]
      exact Int.emod_eq_of_lt (by omega) (by omega)
  rw [toSigned64]
  rcases hcases with hc | hc <;> split <;> omega

theorem rdI64_i64le (z : Int) (rest : List Nat)
    (h1 : -9223372036854775808 ≤ z) (h2 : z < 9223372036854775808) :
    rdI64 (i64le z ++ rest) = some (z, rest) := by
  rw [i64le, rdI64, rdU64_u64le]
  show some (toSigned64 _, rest) = some (z, rest)
  rw [toSigned64_emod z h1 h2]

theorem toSigned32_emod (z : Int) (h1 : -2147483648 ≤ z)
    (h2 : z < 2147483648) :
    toSigned32 ((z % 4294967296).toNat % 4294967296) = z := by
  have hb0 : 0 ≤ z % 4294967296 := Int.emod_nonneg z (by norm_num)
  have hcases : z % 4294967296 = z ∨
      z % 4294967296 = z + 4294967296 := by
    rcases le_or_lt 0 z with hz | hz
    · exact Or.inl (Int.emod_eq_of_lt hz (by omega))
    · refine Or.inr ?_
      have h3 : (z + 4294967296) % 4294967296 = z % 4294967296 := by
        simp [Int.add_mul_emod_self_left]
      rw [← h3]
      exact Int.emod_eq_of_lt (by omega) (by omega)
  rw [toSigned32]
  rcases hcases with hc | hc <;> split <;> omega

theorem rdI32_i32le (z : Int) (rest : List Nat)
    (h1 : -2147483648 ≤ z) (h2 : z < 2147483648) :
    rdI32 (i32le z ++ rest) = some (z, rest) := by
  rw [i32le, rdI32, rdU32_u32le]
  show some (toSigned32 _, rest) = some (z, rest)
  rw [toSigned32_emod z h1 h2]

theorem rdI32_i32le_nil (z : Int)
    (h1 : -2147483648 ≤ z) (h2 : z < 2147483648) :
    rdI32 (i32le z) = some (z, []) := by
  have h := rdI32_i32le z [] h1 h2
  rwa [List.append_nil] at h

theorem rdU8_cons (b : Nat) (rest : List Nat) :
    rdU8 (b :: rest) = some (b, rest) := rfl

/-- The binary-level message with `attempts = 2^31` refuting the binary
round-trip law. -/
def msgBigAttempts : MsgB :=
  { id := [], nextID := [], mType := [], user := [], password := [],
    topicName := [], body := [], bodyString := [], timestamp := 0,
    ack := false, attempts := 2147483648 }

/-- C5 as stated is false for the binary codec: a message whose `attempts`
value is 2^31 (representable in a Go `int`) is truncated by the `int32(...)`
cast on encode and decodes to -2^31, so the decode of the encode is not the
original message. -/
theorem c5_counterexample :
    UnmarshalBinary (MarshalBinary msgBigAttempts) ≠ some msgBigAttempts := by
  decide

/-- C5 amended: the textual round trip holds for every message (the field
copy into and out of the `messageJSON` mirror is lossless), and the binary
round trip holds exactly on messages whose field sizes fit the wire widths:
`uint16`-prefixed fields shorter than 2^16 bytes, `uint32`-prefixed fields
shorter than 2^32 bytes, `timestamp` in `int64` range and `attempts` in
`int32` range.  Outside those bounds the unchecked casts truncate. -/
theorem c5_roundtrip (mj : Message) (mb : MsgB)
    (h1 : mb.id.length < 65536) (h2 : mb.nextID.length < 65536)
    (h3 : mb.mType.length < 65536) (h4 : mb.user.length < 65536)
    (h5 : mb.password.length < 65536) (h6 : mb.topicName.length < 65536)
    (h7 : mb.body.length < 4294967296) (h8 : mb.bodyString.length < 4294967296)
    (h9 : -9223372036854775808 ≤ mb.timestamp)
    (h10 : mb.timestamp < 9223372036854775808)
    (h11 : -2147483648 ≤ mb.attempts) (h12 : mb.attempts < 2147483648) :
    DecodeMessage (Marshall mj) = mj ∧
    UnmarshalBinary (MarshalBinary mb) = some mb := by
  constructor
  · rfl
  · have hack : ((if mb.ack then (1 : Nat) else 0) == 1) = mb.ack := by
      cases mb.ack <;> rfl
    simp only [MarshalBinary, UnmarshalBinary,
      rdField16_field16 _ _ h1, rdField16_field16 _ _ h2,
      rdField16_field16 _ _ h3, rdField16_field16 _ _ h4,
      rdField16_field16 _ _ h5, rdField16_field16 _ _ h6,
      rdField32_field32 _ _ h7, rdField32_field32 _ _ h8,
      rdI64_i64le _ _ h9 h10, rdU8_cons, rdI32_i32le_nil _ h11 h12,
      Option.some_bind, hack]

/-- A small in-range binary message for the round-trip witness. -/
def msgSmallB : MsgB :=
  { id := [102], nextID := [120], mType := [78], user := [],
    password := [], topicName := [116], body := [49, 50],
    bodyString := [49, 50], timestamp := 7, ack := false, attempts := 1 }

theorem c5_roundtrip_witness :
    DecodeMessage (Marshall msgFalseX) = msgFalseX ∧
    UnmarshalBinary (MarshalBinary msgSmallB) = some msgSmallB :=
  c5_roundtrip msgFalseX msgSmallB
    (by decide) (by decide) (by decide) (by decide) (by decide) (by decide)
    (by decide) (by decide) (by decide) (by decide) (by decide) (by decide)

end Queuety
